import Mathlib

/-!
Verification of the acquisition-and-ordering core of `cookbooker`
(`src/cookbooker/cookbooker.py`): URL templating, retrying fetcher,
filetype sniffer, download coordinator, and page-store ordering recovery,
shallowly embedded in Lean and checked against the specification.
-/

namespace Cookbooker

/-! ## URL templating (`get_url_replacements`, the loop in `download_images`)

The source compiles the regular expression `seq=\d+` and calls
`expression.sub(f"{replacement}{i}", base_url)`.  Python's `re.sub` replaces
every non-overlapping occurrence, scanning left to right, with `\d+` matching
a maximal digit run.  `seqSub` is that substitution specialised to the one
pattern the program compiles. -/

/-- Substitution of the regex `seq=\d+` by `repl`, every occurrence
(as Python `re.sub` does): scan left to right; at a position where `seq=`
followed by at least one digit matches, consume `seq=` and the maximal digit
run and emit `repl`; otherwise emit the character and move on.  The scan
consumes at least one character per step, so the input's length serves as
structural fuel. -/
def seqSubF (repl : List Char) : Nat → List Char → List Char
  | 0, s => s
  | fuel + 1, 's' :: 'e' :: 'q' :: '=' :: c :: rest =>
    if c.isDigit then
      repl ++ seqSubF repl fuel (rest.dropWhile Char.isDigit)
    else
      's' :: seqSubF repl fuel ('e' :: 'q' :: '=' :: c :: rest)
  | fuel + 1, c :: rest => c :: seqSubF repl fuel rest
  | _ + 1, [] => []

/-- Python `re.sub(r"seq=\d+", repl, s)`, replacing every occurrence. -/
def seqSub (repl : List Char) (s : List Char) : List Char :=
  seqSubF repl s.length s

/-- Modelled from the spec: substitution of `seq=\d+` by `repl`, but only at
the FIRST occurrence ("replace the first occurrence of the pattern token"),
leaving the rest of the string unchanged. -/
def seqSubFirstF (repl : List Char) : Nat → List Char → List Char
  | 0, s => s
  | fuel + 1, 's' :: 'e' :: 'q' :: '=' :: c :: rest =>
    if c.isDigit then
      repl ++ rest.dropWhile Char.isDigit
    else
      's' :: seqSubFirstF repl fuel ('e' :: 'q' :: '=' :: c :: rest)
  | fuel + 1, c :: rest => c :: seqSubFirstF repl fuel rest
  | _ + 1, [] => []

/-- Modelled from the spec: replace only the first occurrence of the
pattern token. -/
def seqSubFirst (repl : List Char) (s : List Char) : List Char :=
  seqSubFirstF repl s.length s

/-- Whether the token `seq=` followed by a digit starts at the head of the
string. -/
def startsSeqToken : List Char → Bool
  | 's' :: 'e' :: 'q' :: '=' :: c :: _ => c.isDigit
  | _ => false

/-- Whether the string contains an occurrence of the pattern token
`seq=<digits>` (the site-recognisable pattern of the base URL), at any
position. -/
def containsSeqToken : List Char → Bool
  | [] => false
  | c :: rest => startsSeqToken (c :: rest) || containsSeqToken rest

/-- The one regular expression the source compiles: `re.compile(r"seq=\d+")`. -/
inductive Regex
  | seqDigits
deriving DecidableEq

/-- Evaluation `expression.sub(repl, s)`: Python `re.sub`, which substitutes every
non-overlapping occurrence of the pattern. -/
def Regex.sub : Regex → String → String → String
  | .seqDigits, repl, s => ⟨seqSub repl.data s.data⟩

/-- The `Site` enum of the source has the single member `BABLE`; Python's
dynamic typing lets any other value reach `get_url_replacements`
(whose own annotation is `site: str`), where every non-`BABLE`
value falls through to an implicit `return None`. -/
inductive PySite
  | BABLE
  | other (s : String)
deriving DecidableEq

/-- Function `get_url_replacements`: returns the compiled pattern and the replacement
key `"seq="` for `Site.BABLE`; for any other site value the Python function
falls off the end and returns `None`. -/
def get_url_replacements (site : PySite) : Option (Regex × String) :=
  match site with
  | .BABLE => some (.seqDigits, "seq=")
  | .other _ => none

/-- The work-item list built by `download_images`:
`for i in range(1, npages + 1): url_info.append((i, expression.sub(f"{replacement}{i}", base_url)))`. -/
def url_info (base_url : String) (npages : Nat) (expr : Regex) (repl : String) :
    List (Nat × String) :=
  (List.range' 1 npages).map (fun i => (i, expr.sub (repl ++ Nat.repr i) base_url))

/-! ## Filetype sniffer (`determine_filetype`)

The coordinator computes `starting_bytes = image[:16].hex()` (lowercase hex of
the first 16 bytes) and `determine_filetype` compares
`sig == starting_bytes[: len(sig)].upper()` against a fixed signature table,
outer loop over extensions in insertion order, inner loop over that
extension's signatures, first match returned; no match returns `""`. -/

/-- Lowercase hexadecimal digit, as produced by Python `bytes.hex()`. -/
def hexDigitLower (n : Nat) : Char :=
  if n < 10 then Char.ofNat (48 + n) else Char.ofNat (87 + n)

/-- The two lowercase hex characters of one byte (`bytes.hex()` per byte). -/
def byteToHex (b : Nat) : List Char :=
  [hexDigitLower (b / 16), hexDigitLower (b % 16)]

/-- Python `payload.hex()`: lowercase hex string of a byte sequence. -/
def bytesHex (bs : List Nat) : List Char :=
  (bs.map byteToHex).flatten

/-- Comparison `sig == starting_bytes[: len(sig)].upper()`: case-insensitive comparison of
the payload's leading hex characters, truncated to the signature's length. -/
def matchSig (starting_bytes : List Char) (sig : String) : Bool :=
  sig.data == (starting_bytes.take sig.data.length).map Char.toUpper

/-- The signature table `sigs` of `determine_filetype`, in insertion order. -/
def sigs : List (String × List String) :=
  [(".gif", ["474946383761", "474946383961"]),
   (".png", ["89504E470D0A1A0A"]),
   (".jpg", ["FFD8FFDB", "FFD8FFE000104A4649460001"])]

/-- Function `determine_filetype(starting_bytes)`: first extension whose signature list
contains a match, else `""`. -/
def determine_filetype (starting_bytes : List Char) : String :=
  match sigs.find? (fun p => p.2.any (fun sig => matchSig starting_bytes sig)) with
  | some p => p.1
  | none => ""

/-- The byte-level sniff as the coordinator performs it:
`determine_filetype(image[:16].hex())`. -/
def sniff (payload : List Nat) : String :=
  determine_filetype (bytesHex (payload.take 16))

/-- Modelled from the spec: the signature table as byte sequences, flattened
in the listed order (gif `474946383761`, gif `474946383961`,
png `89504E470D0A1A0A`, jpg `FFD8FFDB`, jpg `FFD8FFE000104A4649460001`). -/
def specSigTable : List (String × List Nat) :=
  [(".gif", [0x47, 0x49, 0x46, 0x38, 0x37, 0x61]),
   (".gif", [0x47, 0x49, 0x46, 0x38, 0x39, 0x61]),
   (".png", [0x89, 0x50, 0x4E, 0x47, 0x0D, 0x0A, 0x1A, 0x0A]),
   (".jpg", [0xFF, 0xD8, 0xFF, 0xDB]),
   (".jpg", [0xFF, 0xD8, 0xFF, 0xE0, 0x00, 0x10, 0x4A, 0x46, 0x49, 0x46, 0x00, 0x01])]

/-- Modelled from the spec: first table entry (in listed order) whose signature
equals the payload's leading bytes truncated to the signature's own length;
a payload shorter than a signature never matches it; no match is `""`
(the unknown tag). -/
def sniffSpec (payload : List Nat) : String :=
  match specSigTable.find? (fun p => decide (payload.take p.2.length = p.2)) with
  | some p => p.1
  | none => ""

/-- Uppercase hexadecimal digit (the alphabet of the signature table, which
`starting_bytes[: len(sig)].upper()` is compared against). -/
def hexDigitUpper (n : Nat) : Char :=
  if n < 10 then Char.ofNat (48 + n) else Char.ofNat (55 + n)

/-- The two uppercase hex characters of one byte. -/
def byteToHexU (b : Nat) : List Char :=
  [hexDigitUpper (b / 16), hexDigitUpper (b % 16)]

/-- Uppercase hex string of a byte sequence. -/
def bytesHexU (bs : List Nat) : List Char :=
  (bs.map byteToHexU).flatten

/-! ## Retrying fetcher (`fetch_image`)

`fetch_image` loops `for i in range(10)`, tries `urlopen(url)`, returns
`(page, site.read())` on success, and on `HTTPError` draws
`sleep_time = randint(0, (2**i) - 1)` (Python `randint` is inclusive at both
ends) and sleeps.  If all ten attempts fail the `for` loop ends and the
function returns Python `None`.  The network is modelled by an oracle
`network url i` giving attempt `i`'s response for `url` (`none` = `HTTPError`),
and the random source by `rand a b` modelling `randint(a, b)`.  The run
result pairs the returned value with the log of `(i, sleep_time)` draws. -/

/-- The retry loop of `fetch_image` from attempt index `i` with the remaining
number of attempts as fuel. -/
def fetchLoop (network : String → Nat → Option (List Nat)) (rand : Nat → Nat → Nat)
    (page : Nat) (url : String) :
    Nat → Nat → Option (Nat × List Nat) × List (Nat × Nat)
  | _, 0 => (none, [])
  | i, fuel + 1 =>
    match network url i with
    | some payload => (some (page, payload), [])
    | none =>
      let sleep_time := rand 0 (2 ^ i - 1)
      let rest := fetchLoop network rand page url (i + 1) fuel
      (rest.1, (i, sleep_time) :: rest.2)

/-- Function `fetch_image(url_info)`: the whole `for i in range(10)` retry loop. -/
def fetch_image (network : String → Nat → Option (List Nat)) (rand : Nat → Nat → Nat)
    ( url_info : Nat × String) : Option (Nat × List Nat) × List (Nat × Nat) :=
  fetchLoop network rand url_info.1 url_info.2 0 10

/-! ## Download coordinator (`download_images`) -/

/-- The Python exceptions the embedded coordinator can raise. -/
inductive PyError
  | typeError
deriving DecidableEq

/-- The consumption loop `for image_data in pool.imap_unordered(...)`:
`page_number = image_data[0]` raises `TypeError` when `image_data` is `None`
(a page whose ten attempts all failed), which aborts the loop; otherwise the
payload is sniffed and written to `join(directory, f"{page_number}{image_type}")`.
Returns the files written before any crash, paired with the escaped
exception if one was raised. -/
def process_results (directory : String) :
    List (Option (Nat × List Nat)) → List (String × List Nat) × Option PyError
  | [] => ([], none)
  | none :: _ => ([], some .typeError)
  | some (page_number, image) :: rest =>
    let image_type := determine_filetype (bytesHex (image.take 16))
    let image_file := directory ++ "/" ++ Nat.repr page_number ++ image_type
    let tail := process_results directory rest
    ((image_file, image) :: tail.1, tail.2)

/-- Function `download_images(base_url, npages, directory, site)`: unpacks
`get_url_replacements` (a `None` there is a `TypeError` at the tuple unpack),
builds `url_info`, maps `fetch_image` over it and consumes the results.
The pool's completion order is modelled as submission order. -/
def download_images (base_url : String) (npages : Nat) (directory : String)
    (site : PySite) (network : String → Nat → Option (List Nat))
    (rand : Nat → Nat → Nat) : List (String × List Nat) × Option PyError :=
  match get_url_replacements site with
  | none => ([], some .typeError)
  | some (expression, replacement) =>
    let info := url_info base_url npages expression replacement
    let results := info.map (fun p => (fetch_image network rand p).1)
    process_results directory results

/-! ## Page store (`find_images`, `is_image`) -/

/-- Python `filename.split(".")`: split at every dot; adjacent dots and
leading/trailing dots yield empty components; a string with no dot is the
single component. -/
def splitOnDot : List Char → List (List Char)
  | [] => [[]]
  | '.' :: rest => [] :: splitOnDot rest
  | c :: rest =>
    match splitOnDot rest with
    | h :: t => (c :: h) :: t
    | [] => [[c]]

/-- Predicate `is_image(filename)`: `filename.split(".")[-1] in ("jpg", "png", "gif")`. -/
def is_image (filename : String) : Bool :=
  match (splitOnDot filename.data).getLast? with
  | some ext => ext ∈ ["jpg".data, "png".data, "gif".data]
  | none => false

/-- Python `int(s)` restricted to what stored page names can hold: an optional
sign followed by one or more ASCII digits parses to the integer, anything
else raises `ValueError` (`none`). -/
def pythonInt (s : List Char) : Option Int :=
  match s with
  | '-' :: rest =>
    if rest ≠ [] ∧ rest.all Char.isDigit then
      some (-(Int.ofNat (rest.foldl (fun a c => 10 * a + (c.toNat - 48)) 0)))
    else none
  | '+' :: rest =>
    if rest ≠ [] ∧ rest.all Char.isDigit then
      some (Int.ofNat (rest.foldl (fun a c => 10 * a + (c.toNat - 48)) 0))
    else none
  | l =>
    if l ≠ [] ∧ l.all Char.isDigit then
      some (Int.ofNat (l.foldl (fun a c => 10 * a + (c.toNat - 48)) 0))
    else none

/-- The sort key of `find_images`: `int(x.split(".")[0])`, `none` when `int`
raises `ValueError`. -/
def sortKey (filename : String) : Option Int :=
  pythonInt ((splitOnDot filename.data).headD [])

/-- Key comparison used to embed Python's stable sort by key. -/
def keyLe (a b : String) : Bool :=
  decide ((sortKey a).getD 0 ≤ (sortKey b).getD 0)

/-- The filename-level part of `find_images(directory)`: filter `listdir`'s
entries by `is_image` and sort by `int(x.split(".")[0])`; `none` models the
`ValueError` Python's `int` raises inside the sort key on a kept filename
whose leading component is not an integer. -/
def find_images_names (files : List String) : Option (List String) :=
  let images := files.filter is_image
  if images.all (fun f => (sortKey f).isSome) then
    some (images.mergeSort keyLe)
  else none

/-- Function `find_images(directory)`: the sorted names prefixed by
`join(directory, image)`. -/
def find_images (directory : String) (files : List String) : Option (List String) :=
  (find_images_names files).map (List.map (fun f => directory ++ "/" ++ f))

/-! ## Theorems -/

/-- Strict ascent of `range'` with step 1. -/
theorem pairwise_lt_range' : ∀ s n : Nat, (List.range' s n).Pairwise (· < ·)
  | _, 0 => by simp
  | s, n + 1 => by
    rw [List.range'_succ]
    refine List.Pairwise.cons ?_ (pairwise_lt_range' (s + 1) n)
    intro b hb
    rcases List.mem_range'.mp hb with ⟨i, _, rfl⟩
    omega

/-- C2: for every `pageCount ≥ 1` and a base URL containing the site's pattern
token, the URL-templating loop of `download_images` returns exactly
`pageCount` work items whose page indices are distinct, are exactly the
integers `1..pageCount`, and appear in ascending order. -/
theorem deriveWorkItems_indices (base_url : String) (npages : Nat)
    (h1 : 1 ≤ npages) (h2 : containsSeqToken base_url.data = true) :
    (url_info base_url npages .seqDigits "seq=").length = npages ∧
    (url_info base_url npages .seqDigits "seq=").map Prod.fst = List.range' 1 npages ∧
    ((url_info base_url npages .seqDigits "seq=").map Prod.fst).Pairwise (· < ·) ∧
    ((url_info base_url npages .seqDigits "seq=").map Prod.fst).Nodup := by
  have hmap : (url_info base_url npages .seqDigits "seq=").map Prod.fst =
      List.range' 1 npages := by
    simp [url_info, List.map_map, Function.comp_def]
  refine ⟨?_, hmap, ?_, ?_⟩
  · simp [url_info]
  · rw [hmap]; exact pairwise_lt_range' 1 npages
  · rw [hmap]
    exact (pairwise_lt_range' 1 npages).imp Nat.ne_of_lt

/-- C2 witness: the guarantee evaluated on the documented hathitrust base URL
with three pages. -/
theorem deriveWorkItems_indices_witness :
    (url_info "https://babel.hathitrust.org/cgi/imgsrv/image?id=coo.31924000478770;seq=1;size=125;rotation=0"
        3 .seqDigits "seq=").length = 3 ∧
    (url_info "https://babel.hathitrust.org/cgi/imgsrv/image?id=coo.31924000478770;seq=1;size=125;rotation=0"
        3 .seqDigits "seq=").map Prod.fst = List.range' 1 3 ∧
    ((url_info "https://babel.hathitrust.org/cgi/imgsrv/image?id=coo.31924000478770;seq=1;size=125;rotation=0"
        3 .seqDigits "seq=").map Prod.fst).Pairwise (· < ·) ∧
    ((url_info "https://babel.hathitrust.org/cgi/imgsrv/image?id=coo.31924000478770;seq=1;size=125;rotation=0"
        3 .seqDigits "seq=").map Prod.fst).Nodup :=
  deriveWorkItems_indices _ 3 (by decide) (by decide)

/-- C6 counterexample: the source's `expression.sub` (Python `re.sub`)
replaces EVERY occurrence of `seq=<digits>`, not only the first: on the base
URL `"seq=3;seq=7"` with page index 1 the code produces `"seq=1;seq=1"`,
while replacing only the first occurrence would leave `"seq=1;seq=7"`. -/
theorem urlTemplating_not_first_occurrence_only :
    (url_info "seq=3;seq=7" 1 .seqDigits "seq=").map Prod.snd = ["seq=1;seq=1"] ∧
    String.mk (seqSubFirst ("seq=" ++ Nat.repr 1).data "seq=3;seq=7".data) = "seq=1;seq=7" ∧
    ("seq=1;seq=1" : String) ≠ "seq=1;seq=7" :=
  ⟨rfl, rfl, by decide⟩

/-- C6 (amended): for each page index `i` in `1..pageCount`, the `i`-th work
item is `(i, base URL with EVERY occurrence of the pattern token seq=<digits>
replaced by "seq=" ++ i)`; on a base URL whose only occurrence is the one
token, this leaves the rest of the URL unchanged. -/
theorem urlTemplating_substitution (base_url : String) (npages i : Nat)
    (h1 : 1 ≤ i) (h2 : i ≤ npages) :
    (url_info base_url npages .seqDigits "seq=")[i - 1]? =
      some (i, Regex.sub .seqDigits ("seq=" ++ Nat.repr i) base_url) ∧
    Regex.sub .seqDigits "seq=4" "https://h.org/img?id=c.31;seq=123;size=125" =
      "https://h.org/img?id=c.31;seq=4;size=125" := by
  constructor
  · have hi : i - 1 < npages := by omega
    have h1' : 1 + (i - 1) = i := by omega
    simp [url_info, List.getElem?_map, List.getElem?_range' _ _ hi, h1']
  · rfl

/-- C6 witness: the amended substitution rule evaluated at page 2 of 2 on a
base URL with a single pattern-token occurrence. -/
theorem urlTemplating_substitution_witness :
    (url_info "u?seq=0;z" 2 .seqDigits "seq=")[2 - 1]? =
      some (2, Regex.sub .seqDigits ("seq=" ++ Nat.repr 2) "u?seq=0;z") ∧
    Regex.sub .seqDigits "seq=4" "https://h.org/img?id=c.31;seq=123;size=125" =
      "https://h.org/img?id=c.31;seq=4;size=125" :=
  urlTemplating_substitution "u?seq=0;z" 2 2 (by decide) (by decide)

/-- Bounds on everything the retry loop logs: starting at attempt `i` with
`fuel` remaining attempts, every logged sleep `(j, s)` has `i ≤ j < i + fuel`
and `s ≤ 2 ^ j - 1` (a `randint(0, 2**j - 1)` draw), and at most `fuel`
sleeps are logged. -/
theorem fetchLoop_sleep_bounds (network : String → Nat → Option (List Nat))
    (rand : Nat → Nat → Nat) (page : Nat) (url : String)
    (hr : ∀ a b : Nat, a ≤ b → rand a b ≤ b) :
    ∀ fuel i,
      (∀ p ∈ (fetchLoop network rand page url i fuel).2,
        i ≤ p.1 ∧ p.1 < i + fuel ∧ p.2 ≤ 2 ^ p.1 - 1) ∧
      (fetchLoop network rand page url i fuel).2.length ≤ fuel
  | 0, i => by simp [fetchLoop]
  | fuel + 1, i => by
    have ih := fetchLoop_sleep_bounds network rand page url hr fuel (i + 1)
    cases hnet : network url i with
    | some payload => simp [fetchLoop, hnet]
    | none =>
      simp only [fetchLoop, hnet]
      refine ⟨?_, ?_⟩
      · intro p hp
        rcases List.mem_cons.mp hp with rfl | hp'
        · exact ⟨le_refl i, by omega, hr 0 (2 ^ i - 1) (Nat.zero_le _)⟩
        · have := ih.1 p hp'
          exact ⟨by omega, by omega, this.2.2⟩
      · simpa using Nat.succ_le_succ ih.2

/-- When every attempt in range fails, the loop returns Python `None` and logs
one sleep per attempt: the sleep indices are exactly `i, i+1, ..., i+fuel-1`. -/
theorem fetchLoop_exhaust (network : String → Nat → Option (List Nat))
    (rand : Nat → Nat → Nat) (page : Nat) (url : String) :
    ∀ fuel i, (∀ j, j < i + fuel → network url j = none) →
      (fetchLoop network rand page url i fuel).1 = none ∧
      (fetchLoop network rand page url i fuel).2.map Prod.fst = List.range' i fuel
  | 0, i, _ => by simp [fetchLoop]
  | fuel + 1, i, h => by
    have hi : network url i = none := h i (by omega)
    have ih := fetchLoop_exhaust network rand page url fuel (i + 1)
      (fun j hj => h j (by omega))
    simp only [fetchLoop, hi, List.range'_succ, List.map_cons]
    exact ⟨ih.1, by rw [ih.2]⟩

/-- C5 counterexample: the spec's half-open backoff interval `[0, 2^i - 1)` is
wrong.  On a fetch whose first attempt fails, the sleep logged for attempt 0
is a `randint(0, 2^0 - 1) = randint(0, 0)` draw, necessarily `0` — yet
`[0, 2^0 - 1) = [0, 0)` is empty, so the drawn duration is NOT in the claimed
interval. -/
theorem backoff_halfopen_interval_false :
    ((0, 0) ∈ (fetch_image (fun _ _ => none) (fun a _ => a) (1, "u")).2) ∧
    ¬ ((0 : Nat) < 2 ^ 0 - 1) :=
  ⟨by decide, by decide⟩

/-- C5 (amended): every transient-failure sleep logged for attempt `i` is a
`randint(0, 2^i - 1)` draw and hence lies in the CLOSED interval
`[0, 2^i - 1]` (equivalently, the half-open `[0, 2^i)`), and the attempt
count never exceeds 10 before the fetch's outcome becomes the terminal
failure value. -/
theorem backoff_bound (network : String → Nat → Option (List Nat))
    (rand : Nat → Nat → Nat) (page : Nat) (url : String)
    (hr : ∀ a b : Nat, a ≤ b → rand a b ≤ b) :
    (∀ p ∈ (fetch_image network rand (page, url)).2,
      p.1 < 10 ∧ p.2 ≤ 2 ^ p.1 - 1 ∧ p.2 < 2 ^ p.1) ∧
    (fetch_image network rand (page, url)).2.length ≤ 10 := by
  have h := fetchLoop_sleep_bounds network rand page url hr 10 0
  refine ⟨fun p hp => ?_, h.2⟩
  have hb := h.1 p hp
  refine ⟨by omega, hb.2.2, ?_⟩
  have : (1 : Nat) ≤ 2 ^ p.1 := Nat.one_le_two_pow
  omega

/-- C5 witness: the amended bound evaluated on a fetch whose every attempt
fails, with the random source always drawing the upper endpoint. -/
theorem backoff_bound_witness :
    (∀ p ∈ (fetch_image (fun _ _ => none) (fun _ b => b) (1, "u")).2,
      p.1 < 10 ∧ p.2 ≤ 2 ^ p.1 - 1 ∧ p.2 < 2 ^ p.1) ∧
    (fetch_image (fun _ _ => none) (fun _ b => b) (1, "u")).2.length ≤ 10 :=
  backoff_bound _ _ 1 "u" (fun _ b _ => le_refl b)

/-- C10: when all ten attempts of a work item fail with an HTTP error, the
fetcher still draws and performs a final backoff sleep for attempt 9 — a
`randint(0, 2^9 - 1)` draw, so up to `2^9 - 1` time units, attained when the
random source draws the upper endpoint — and then returns Python `None`
rather than a record carrying the page index and last error. -/
theorem fetch_exhaustion_returns_none (network : String → Nat → Option (List Nat))
    (rand : Nat → Nat → Nat) (page : Nat) (url : String)
    (hr : ∀ a b : Nat, a ≤ b → rand a b ≤ b)
    (hfail : ∀ j, j < 10 → network url j = none) :
    (fetch_image network rand (page, url)).1 = none ∧
    (fetch_image network rand (page, url)).2.map Prod.fst = List.range' 0 10 ∧
    (∃ s, (9, s) ∈ (fetch_image network rand (page, url)).2 ∧ s ≤ 2 ^ 9 - 1) ∧
    fetch_image (fun _ _ => none) (fun _ b => b) (page, url) =
      (none, [(0, 0), (1, 1), (2, 3), (3, 7), (4, 15), (5, 31), (6, 63),
              (7, 127), (8, 255), (9, 511)]) := by
  have hex := fetchLoop_exhaust network rand page url 10 0 (fun j hj => hfail j (by omega))
  have hb := fetchLoop_sleep_bounds network rand page url hr 10 0
  refine ⟨hex.1, hex.2, ?_, rfl⟩
  have h9 : 9 ∈ (fetchLoop network rand page url 0 10).2.map Prod.fst := by
    rw [hex.2]; decide
  rcases List.mem_map.mp h9 with ⟨p, hp, hfst⟩
  refine ⟨p.2, ?_, ?_⟩
  · have hp' : p = (9, p.2) := by
      rw [← hfst]
    rw [← hp']; exact hp
  · have := (hb.1 p hp).2.2
    rw [hfst] at this; exact this

/-- C10 witness: the exhaustion behaviour evaluated on a concrete work item
whose every attempt fails. -/
theorem fetch_exhaustion_returns_none_witness :
    (fetch_image (fun _ _ => none) (fun a _ => a) (5, "u")).1 = none ∧
    (fetch_image (fun _ _ => none) (fun a _ => a) (5, "u")).2.map Prod.fst =
      List.range' 0 10 ∧
    (∃ s, (9, s) ∈ (fetch_image (fun _ _ => none) (fun a _ => a) (5, "u")).2 ∧
      s ≤ 2 ^ 9 - 1) ∧
    fetch_image (fun _ _ => none) (fun _ b => b) ((5 : Nat), "u") =
      (none, [(0, 0), (1, 1), (2, 3), (3, 7), (4, 15), (5, 31), (6, 63),
              (7, 127), (8, 255), (9, 511)]) :=
  fetch_exhaustion_returns_none _ _ 5 "u" (fun _ _ h => h)
    (fun _ _ => rfl)

/-- C1: partial-failure tolerance FAILS in the code.  On a batch of 10 pages
where page 5's every attempt raises `HTTPError`, `fetch_image` returns
Python `None` for it, and the coordinator's `page_number = image_data[0]`
raises `TypeError`: the exception escapes the batch, only the pages consumed
before the crash (1–4 in submission order) are written, and the remaining
successfully fetched pages are lost — the run does not complete. -/
theorem coordinator_crashes_on_terminal_failure :
    (download_images "seq=0" 10 "d" .BABLE
        (fun u _ => if u = "seq=5" then none
          else some [0x47, 0x49, 0x46, 0x38, 0x39, 0x61])
        (fun a _ => a)).2 = some PyError.typeError ∧
    (download_images "seq=0" 10 "d" .BABLE
        (fun u _ => if u = "seq=5" then none
          else some [0x47, 0x49, 0x46, 0x38, 0x39, 0x61])
        (fun a _ => a)).1.map Prod.fst = ["d/1.gif", "d/2.gif", "d/3.gif", "d/4.gif"] :=
  ⟨rfl, rfl⟩

/-- C7: there is no `UnrecognizedSiteError` in the code.  For every site value
other than `Site.BABLE`, `get_url_replacements` falls off the end and returns
Python `None`; the tuple unpack `expression, replacement = ...` in
`download_images` then raises `TypeError` (before any network activity), and
`main` itself handles an unrecognized URL by printing and returning normally
rather than raising. -/
theorem unrecognized_site_returns_none (s : String) :
    get_url_replacements (.other s) = none ∧
    ∀ (base_url : String) (npages : Nat) (directory : String)
      (network : String → Nat → Option (List Nat)) (rand : Nat → Nat → Nat),
      download_images base_url npages directory (.other s) network rand =
        ([], some PyError.typeError) :=
  ⟨rfl, fun _ _ _ _ _ => rfl⟩

/-- Transitivity of the embedded sort-key comparison. -/
theorem keyLe_trans : ∀ a b c : String, keyLe a b → keyLe b c → keyLe a c := by
  intro a b c hab hbc
  simp only [keyLe, decide_eq_true_eq] at *
  omega

/-- Totality of the embedded sort-key comparison. -/
theorem keyLe_total : ∀ a b : String, keyLe a b || keyLe b a := by
  intro a b
  simp only [keyLe, Bool.or_eq_true, decide_eq_true_eq]
  omega

/-- The successful path of `find_images`: when every kept filename's leading
component parses, the result is the kept filenames sorted strictly ascending
by page key (given the store invariant that keys are distinct), and is a
permutation of the kept filenames. -/
theorem find_images_names_sorted (files : List String)
    (hparse : ∀ f ∈ files.filter is_image, (sortKey f).isSome)
    (hdist : (files.filter is_image).Pairwise (fun a b => sortKey a ≠ sortKey b)) :
    ∃ names, find_images_names files = some names ∧
      names.Pairwise (fun a b => (sortKey a).getD 0 < (sortKey b).getD 0) ∧
      names.Perm (files.filter is_image) := by
  have hall : (files.filter is_image).all (fun f => (sortKey f).isSome) = true := by
    rw [List.all_eq_true]; exact fun f hf => by simpa using hparse f hf
  refine ⟨(files.filter is_image).mergeSort keyLe, ?_, ?_, ?_⟩
  · simp [find_images_names, hall]
  · have hsorted : ((files.filter is_image).mergeSort keyLe).Pairwise
        (fun a b => keyLe a b) :=
      List.sorted_mergeSort (fun a b c => keyLe_trans a b c)
        (fun a b => keyLe_total a b) (files.filter is_image)
    have hperm := List.mergeSort_perm (files.filter is_image) keyLe
    have hdist' : ((files.filter is_image).mergeSort keyLe).Pairwise
        (fun a b => sortKey a ≠ sortKey b) :=
      (hperm.pairwise_iff (fun h => Ne.symm h)).mpr hdist
    refine (hsorted.and hdist').imp_of_mem ?_
    intro a b ha hb hab
    have hsa := hparse a (hperm.mem_iff.mp ha)
    have hsb := hparse b (hperm.mem_iff.mp hb)
    rcases Option.isSome_iff_exists.mp hsa with ⟨x, hx⟩
    rcases Option.isSome_iff_exists.mp hsb with ⟨y, hy⟩
    have hle : (sortKey a).getD 0 ≤ (sortKey b).getD 0 := by
      have := hab.1
      simpa [keyLe] using this
    have hne : (sortKey a).getD 0 ≠ (sortKey b).getD 0 := by
      rw [hx, hy]
      intro hcontra
      exact hab.2 (by rw [hx, hy]; simpa using hcontra)
    omega
  · exact List.mergeSort_perm (files.filter is_image) keyLe

/-- C4: `listOrderedPages` sorts by the numeric value of the filename's
leading token, not lexicographically: for stored files `{3.png, 1.jpg,
10.gif}` it returns `1.jpg, 3.png, 10.gif`; and for every directory of
validly named page files (leading tokens parse and, by the store invariant,
are distinct) the returned sequence is strictly ascending by page index and
is exactly a permutation of the kept files — missing indices are simply
absent, with no gap-filling. -/
theorem listOrderedPages_numeric_order :
    find_images "d" ["3.png", "1.jpg", "10.gif"] =
      some ["d/1.jpg", "d/3.png", "d/10.gif"] ∧
    ∀ files : List String,
      (∀ f ∈ files.filter is_image, (sortKey f).isSome) →
      (files.filter is_image).Pairwise (fun a b => sortKey a ≠ sortKey b) →
      ∃ names, find_images_names files = some names ∧
        names.Pairwise (fun a b => (sortKey a).getD 0 < (sortKey b).getD 0) ∧
        names.Perm (files.filter is_image) ∧
        ∀ directory, find_images directory files =
          some (names.map (fun f => directory ++ "/" ++ f)) := by
  constructor
  · rcases find_images_names_sorted ["3.png", "1.jpg", "10.gif"]
        (by decide) (by decide) with ⟨names, hsome, hpair, hperm⟩
    haveI : IsAntisymm String (fun a b => (sortKey a).getD 0 < (sortKey b).getD 0) :=
      ⟨fun a b h1 h2 => absurd (lt_trans h1 h2) (lt_irrefl _)⟩
    have hperm' : names.Perm ["1.jpg", "3.png", "10.gif"] := by
      refine hperm.trans ?_
      decide
    have heq : names = ["1.jpg", "3.png", "10.gif"] :=
      List.eq_of_perm_of_sorted hperm' hpair (by decide)
    rw [find_images, hsome, heq]
    rfl
  · intro files hparse hdist
    rcases find_images_names_sorted files hparse hdist with ⟨names, hsome, hpair, hperm⟩
    exact ⟨names, hsome, hpair, hperm, fun directory => by rw [find_images, hsome]; rfl⟩

/-- C4 witness: the guarantee evaluated on the concrete store
`{3.png, 1.jpg, 10.gif}`. -/
theorem listOrderedPages_numeric_order_witness :
    ∃ names, find_images_names ["3.png", "1.jpg", "10.gif"] = some names ∧
      names.Pairwise (fun a b => (sortKey a).getD 0 < (sortKey b).getD 0) ∧
      names.Perm (["3.png", "1.jpg", "10.gif"].filter is_image) ∧
      ∀ directory, find_images directory ["3.png", "1.jpg", "10.gif"] =
        some (names.map (fun f => directory ++ "/" ++ f)) :=
  listOrderedPages_numeric_order.2 ["3.png", "1.jpg", "10.gif"] (by decide) (by decide)

/-- C8: `listOrderedPages` keeps exactly the directory entries whose extension
is one of `gif`, `png`, `jpg` (entries with unknown or empty extension are
silently excluded), and fails hard — `int` raises inside the sort key, the
spec's `MalformedPageNameError` — as soon as some KEPT filename's component
before its extension is not parseable as an integer. -/
theorem pageStore_filter_and_malformed (files : List String) :
    (∀ l, find_images_names files = some l →
      ∀ f, f ∈ l ↔ f ∈ files ∧ is_image f) ∧
    ((∃ f ∈ files.filter is_image, sortKey f = none) →
      find_images_names files = none) ∧
    ((∀ f ∈ files.filter is_image, (sortKey f).isSome) →
      (find_images_names files).isSome) := by
  refine ⟨?_, ?_, ?_⟩
  · intro l hl f
    have : l = (files.filter is_image).mergeSort keyLe := by
      by_cases hall : (files.filter is_image).all (fun f => (sortKey f).isSome)
      · simpa [find_images_names, hall] using hl.symm
      · simp [find_images_names, hall] at hl
    subst this
    rw [List.mem_mergeSort, List.mem_filter]
  · rintro ⟨f, hf, hk⟩
    have hall : ¬ (files.filter is_image).all (fun f => (sortKey f).isSome) := by
      simp only [List.all_eq_true, not_forall]
      exact ⟨f, hf, by simp [hk]⟩
    simp [find_images_names, hall]
  · intro hparse
    have hall : (files.filter is_image).all (fun f => (sortKey f).isSome) = true := by
      rw [List.all_eq_true]; exact fun f hf => by simpa using hparse f hf
    simp [find_images_names, hall]

/-- C8 witness: on the store `{2.png, bad.jpg, readme.txt}`, `readme.txt` is
silently excluded, and the kept `bad.jpg` whose leading component is not an
integer makes the listing fail. -/
theorem pageStore_filter_and_malformed_witness :
    find_images_names ["2.png", "bad.jpg", "readme.txt"] = none :=
  (pageStore_filter_and_malformed ["2.png", "bad.jpg", "readme.txt"]).2.1
    ⟨"bad.jpg", by decide, by decide⟩

/-- Python `str.upper()` maps each lowercase hex digit to its uppercase form. -/
theorem toUpper_hexDigitLower : ∀ n, n < 16 → Char.toUpper (hexDigitLower n) = hexDigitUpper n := by
  decide

/-- Uppercasing the two hex characters of a byte. -/
theorem map_toUpper_byteToHex (b : Nat) (hb : b < 256) :
    (byteToHex b).map Char.toUpper = byteToHexU b := by
  have h1 : b / 16 < 16 := Nat.div_lt_of_lt_mul (by omega)
  have h2 : b % 16 < 16 := Nat.mod_lt _ (by omega)
  simp [byteToHex, byteToHexU, toUpper_hexDigitLower _ h1, toUpper_hexDigitLower _ h2]

/-- Uppercasing the hex string of a byte sequence. -/
theorem map_toUpper_bytesHex : ∀ bs : List Nat, (∀ b ∈ bs, b < 256) →
    (bytesHex bs).map Char.toUpper = bytesHexU bs
  | [], _ => rfl
  | b :: t, h => by
    have hb : b < 256 := h b (List.mem_cons_self b t)
    have ht := map_toUpper_bytesHex t (fun x hx => h x (List.mem_cons_of_mem b hx))
    simp only [bytesHex, bytesHexU, List.map_cons, List.flatten_cons, List.map_append] at *
    rw [map_toUpper_byteToHex b hb, ht]

/-- Truncating the hex string to `2 * k` characters is hex-encoding the first
`k` bytes. -/
theorem take_bytesHex : ∀ (bs : List Nat) (k : Nat),
    (bytesHex bs).take (2 * k) = bytesHex (bs.take k)
  | [], k => by simp [bytesHex]
  | b :: t, 0 => by simp [bytesHex]
  | b :: t, k + 1 => by
    have h2 : 2 * (k + 1) = 2 * k + 1 + 1 := by omega
    simp only [bytesHex, List.map_cons, List.flatten_cons, byteToHex, List.cons_append,
      List.nil_append, h2, List.take_succ_cons]
    have := take_bytesHex t k
    simp only [bytesHex] at this
    rw [this]

/-- The uppercase hex digit encoding is injective below 16. -/
theorem hexDigitUpper_inj : ∀ a, a < 16 → ∀ b, b < 16 →
    hexDigitUpper a = hexDigitUpper b → a = b := by
  decide

/-- The uppercase two-character encoding is injective below 256. -/
theorem byteToHexU_inj (a b : Nat) (ha : a < 256) (hb : b < 256)
    (h : byteToHexU a = byteToHexU b) : a = b := by
  simp only [byteToHexU, List.cons.injEq, and_true] at h
  have h1 := hexDigitUpper_inj _ (Nat.div_lt_of_lt_mul (by omega)) _
    (Nat.div_lt_of_lt_mul (by omega)) h.1
  have h2 := hexDigitUpper_inj _ (Nat.mod_lt _ (by omega)) _
    (Nat.mod_lt _ (by omega)) h.2
  omega

/-- Uppercase hex encoding of byte sequences is injective. -/
theorem bytesHexU_inj : ∀ l m : List Nat, (∀ b ∈ l, b < 256) → (∀ b ∈ m, b < 256) →
    bytesHexU l = bytesHexU m → l = m
  | [], [], _, _, _ => rfl
  | [], b :: m, _, _, h => by simp [bytesHexU, byteToHexU] at h
  | a :: l, [], _, _, h => by simp [bytesHexU, byteToHexU] at h
  | a :: l, b :: m, hl, hm, h => by
    simp only [bytesHexU, List.map_cons, List.flatten_cons, byteToHexU,
      List.cons_append, List.nil_append, List.cons.injEq] at h
    have ha : a < 256 := hl a (List.mem_cons_self a l)
    have hb : b < 256 := hm b (List.mem_cons_self b m)
    have hab : a = b := byteToHexU_inj a b ha hb (by
      simp only [byteToHexU, List.cons.injEq, and_true]
      exact ⟨h.1, h.2.1⟩)
    have htail : l = m := bytesHexU_inj l m
      (fun x hx => hl x (List.mem_cons_of_mem a hx))
      (fun x hx => hm x (List.mem_cons_of_mem b hx))
      (by simp only [bytesHexU]; exact h.2.2)
    rw [hab, htail]

/-- The code's signature comparison
`sig == starting_bytes[: len(sig)].upper()` on the hex string of a byte
sequence is exactly the spec's byte-level comparison `payload.take k = sig`:
truncation to the signature's own length, shorter payloads never matching. -/
theorem matchSig_eq_bytes (bs : List Nat) (hb : ∀ b ∈ bs, b < 256)
    (sigStr : String) (sigBytes : List Nat) (hsb : ∀ b ∈ sigBytes, b < 256)
    (hlen : sigStr.data.length = 2 * sigBytes.length)
    (henc : bytesHexU sigBytes = sigStr.data) :
    matchSig (bytesHex bs) sigStr = decide (bs.take sigBytes.length = sigBytes) := by
  unfold matchSig
  rw [hlen, take_bytesHex,
    map_toUpper_bytesHex _ (fun b hb' => hb b (List.mem_of_mem_take hb')), ← henc]
  by_cases hEq : bs.take sigBytes.length = sigBytes
  · simp [hEq]
  · have hne : bytesHexU sigBytes ≠ bytesHexU (bs.take sigBytes.length) := by
      intro hcontra
      exact hEq (bytesHexU_inj sigBytes _ hsb
        (fun x hx => hb x (List.mem_of_mem_take hx)) hcontra).symm
    simp [hEq, hne]

/-- Lemma: `sniffSpec` yields the unknown tag when no table entry matches. -/
theorem sniffSpec_no_match (payload : List Nat)
    (h : ∀ p ∈ specSigTable, payload.take p.2.length ≠ p.2) :
    sniffSpec payload = "" := by
  have : specSigTable.find? (fun p => decide (payload.take p.2.length = p.2)) = none :=
    List.find?_eq_none.mpr (fun p hp => by simpa using h p hp)
  simp [sniffSpec, this]

/-- C3: the filetype sniffer is a function of at most the first 16 bytes of
the payload, and agrees with the spec's byte-level matching rule: the
signature table in listed order (gif `474946383761`, gif `474946383961`,
png `89504E470D0A1A0A`, jpg `FFD8FFDB`, jpg `FFD8FFE000104A4649460001`),
payload truncated to each signature's own length (so a shorter payload never
matches that signature), first match wins, and no match yields the unknown
tag `""` rather than an error. -/
theorem sniff_refines_spec (payload : List Nat) (hb : ∀ b ∈ payload, b < 256) :
    sniff payload = sniff (payload.take 16) ∧
    sniff payload = sniffSpec payload ∧
    ((∀ p ∈ specSigTable, payload.take p.2.length ≠ p.2) → sniff payload = "") := by
  have hb16 : ∀ b ∈ payload.take 16, b < 256 :=
    fun b hb' => hb b (List.mem_of_mem_take hb')
  have t6 : (payload.take 16).take 6 = payload.take 6 := by
    rw [List.take_take]; congr 1
  have t8 : (payload.take 16).take 8 = payload.take 8 := by
    rw [List.take_take]; congr 1
  have t4 : (payload.take 16).take 4 = payload.take 4 := by
    rw [List.take_take]; congr 1
  have t12 : (payload.take 16).take 12 = payload.take 12 := by
    rw [List.take_take]; congr 1
  have m1 : matchSig (bytesHex (payload.take 16)) "474946383761" =
      decide (payload.take 6 = [0x47, 0x49, 0x46, 0x38, 0x37, 0x61]) := by
    simpa [t6] using matchSig_eq_bytes (payload.take 16) hb16 "474946383761"
      [0x47, 0x49, 0x46, 0x38, 0x37, 0x61] (by decide) (by decide) (by decide)
  have m2 : matchSig (bytesHex (payload.take 16)) "474946383961" =
      decide (payload.take 6 = [0x47, 0x49, 0x46, 0x38, 0x39, 0x61]) := by
    simpa [t6] using matchSig_eq_bytes (payload.take 16) hb16 "474946383961"
      [0x47, 0x49, 0x46, 0x38, 0x39, 0x61] (by decide) (by decide) (by decide)
  have m3 : matchSig (bytesHex (payload.take 16)) "89504E470D0A1A0A" =
      decide (payload.take 8 = [0x89, 0x50, 0x4E, 0x47, 0x0D, 0x0A, 0x1A, 0x0A]) := by
    simpa [t8] using matchSig_eq_bytes (payload.take 16) hb16 "89504E470D0A1A0A"
      [0x89, 0x50, 0x4E, 0x47, 0x0D, 0x0A, 0x1A, 0x0A] (by decide) (by decide) (by decide)
  have m4 : matchSig (bytesHex (payload.take 16)) "FFD8FFDB" =
      decide (payload.take 4 = [0xFF, 0xD8, 0xFF, 0xDB]) := by
    simpa [t4] using matchSig_eq_bytes (payload.take 16) hb16 "FFD8FFDB"
      [0xFF, 0xD8, 0xFF, 0xDB] (by decide) (by decide) (by decide)
  have m5 : matchSig (bytesHex (payload.take 16)) "FFD8FFE000104A4649460001" =
      decide (payload.take 12 =
        [0xFF, 0xD8, 0xFF, 0xE0, 0x00, 0x10, 0x4A, 0x46, 0x49, 0x46, 0x00, 0x01]) := by
    simpa [t12] using matchSig_eq_bytes (payload.take 16) hb16 "FFD8FFE000104A4649460001"
      [0xFF, 0xD8, 0xFF, 0xE0, 0x00, 0x10, 0x4A, 0x46, 0x49, 0x46, 0x00, 0x01]
      (by decide) (by decide) (by decide)
  have hspec : sniff payload = sniffSpec payload := by
    by_cases h1 : payload.take 6 = [0x47, 0x49, 0x46, 0x38, 0x37, 0x61] <;>
      by_cases h2 : payload.take 6 = [0x47, 0x49, 0x46, 0x38, 0x39, 0x61] <;>
      by_cases h3 : payload.take 8 = [0x89, 0x50, 0x4E, 0x47, 0x0D, 0x0A, 0x1A, 0x0A] <;>
      by_cases h4 : payload.take 4 = [0xFF, 0xD8, 0xFF, 0xDB] <;>
      by_cases h5 : payload.take 12 =
        [0xFF, 0xD8, 0xFF, 0xE0, 0x00, 0x10, 0x4A, 0x46, 0x49, 0x46, 0x00, 0x01] <;>
      simp [sniff, determine_filetype, sniffSpec, sigs, specSigTable, List.find?,
        m1, m2, m3, m4, m5, h1, h2, h3, h4, h5]
  refine ⟨?_, hspec, ?_⟩
  · simp [sniff, List.take_take]
  · intro hno
    rw [hspec]
    exact sniffSpec_no_match payload hno

/-- C3 witness: the refinement evaluated on a ten-byte payload starting with
the PNG signature. -/
theorem sniff_refines_spec_witness :
    sniff [0x89, 0x50, 0x4E, 0x47, 0x0D, 0x0A, 0x1A, 0x0A, 0, 0] =
      sniff ([0x89, 0x50, 0x4E, 0x47, 0x0D, 0x0A, 0x1A, 0x0A, 0, 0].take 16) ∧
    sniff [0x89, 0x50, 0x4E, 0x47, 0x0D, 0x0A, 0x1A, 0x0A, 0, 0] =
      sniffSpec [0x89, 0x50, 0x4E, 0x47, 0x0D, 0x0A, 0x1A, 0x0A, 0, 0] ∧
    ((∀ p ∈ specSigTable,
        [0x89, 0x50, 0x4E, 0x47, 0x0D, 0x0A, 0x1A, 0x0A, (0 : Nat), 0].take p.2.length ≠ p.2) →
      sniff [0x89, 0x50, 0x4E, 0x47, 0x0D, 0x0A, 0x1A, 0x0A, 0, 0] = "") :=
  sniff_refines_spec [0x89, 0x50, 0x4E, 0x47, 0x0D, 0x0A, 0x1A, 0x0A, 0, 0] (by decide)

end Cookbooker
